import Mathlib

/-!
Verification of the row-processing pipeline of `run.js` (Notion email
sender).  The JavaScript source is shallowly embedded: pure string and
list manipulation becomes Lean functions over `String` / `List Char`,
the stateful token cache becomes explicit state passing, and every
network call (DNS MX resolution, Notion fetches, the Graph send) is a
parameter supplying that call's result, so that each function is a pure
transition from inputs to outputs and emitted effects.
-/

set_option maxRecDepth 4000

/-! ## JavaScript string primitives -/

/-- The opening brace character, `\x7b`. -/
def lbrace : Char := Char.ofNat 123

/-- The closing brace character, `\x7d`. -/
def rbrace : Char := Char.ofNat 125

/-- The backtick character. -/
def backquoteChar : Char := Char.ofNat 96

/-- The single-quote character. -/
def squoteChar : Char := Char.ofNat 39

/-- The character class `\s` of a (non-unicode-mode) JavaScript regular
expression: space, tab, line terminators, and the unicode space set. -/
def isJsWhitespace (c : Char) : Bool :=
  c = ' ' || c = '\t' || c = '\n' || c = '\r' ||
  c.toNat = 11 || c.toNat = 12 ||
  c.toNat = 0xa0 || c.toNat = 0x1680 ||
  (0x2000 ≤ c.toNat && c.toNat ≤ 0x200a) ||
  c.toNat = 0x2028 || c.toNat = 0x2029 || c.toNat = 0x202f ||
  c.toNat = 0x205f || c.toNat = 0x3000 || c.toNat = 0xfeff

/-- A character matching `[^\s@]`: neither whitespace nor `@`. -/
def okLocalChar (c : Char) : Bool :=
  !(c = '@') && !(isJsWhitespace c)

/-- `str.split("@")` of JavaScript, on the character-list level: the
maximal `@`-free segments, in order. -/
def splitOnAt : List Char → List (List Char)
  | [] => [[]]
  | c :: rest =>
    match splitOnAt rest with
    | [] => [[c]]
    | h :: t => if c = '@' then [] :: h :: t else (c :: h) :: t

/-- Global single-character replacement, the semantics of
`str.replace(/c/g, repl)` for a one-character pattern and a `$`-free
replacement (the replacements used by the HTML escaper are all fixed
`$`-free literals). -/
def replaceCharAll (c : Char) (repl : List Char) : List Char → List Char
  | [] => []
  | x :: rest =>
    (if x = c then repl else [x]) ++ replaceCharAll c repl rest

/-! ### `String.prototype.replace` with a replacement string

JavaScript's `replace(regexp, replacement)` interprets `$` patterns in
the replacement string (ECMA-262 `GetSubstitution`).  The pattern
`/\{\{name\}\}/gi` has no capture groups, so the live patterns are
`$$` (a literal dollar), `$&` (the matched text), a backquoted `$`
(the text before the match) and a single-quoted `$` (the text after
the match); any other `$` is literal. -/

/-- ECMA-262 `GetSubstitution` for a regular expression without capture
groups: expand `$` patterns of the replacement string `repl`, where
`matched` is the matched text, `pre` the part of the subject before the
match and `post` the part after it. -/
def getSubstitution (matched pre post : List Char) : List Char → List Char
  | [] => []
  | [c] => [c]
  | c :: d :: rest2 =>
    if c = '$' then
      if d = '$' then '$' :: getSubstitution matched pre post rest2
      else if d = '&' then matched ++ getSubstitution matched pre post rest2
      else if d = backquoteChar then pre ++ getSubstitution matched pre post rest2
      else if d = squoteChar then post ++ getSubstitution matched pre post rest2
      else c :: getSubstitution matched pre post (d :: rest2)
    else c :: getSubstitution matched pre post (d :: rest2)

/-- Does the character list begin with a match of `/\{\{name\}\}/i`?
Case-insensitivity of the `i` flag on the ASCII letters `n a m e`
canonicalises exactly to their two cases. -/
def placeholderAt (cs : List Char) : Bool :=
  match cs with
  | a :: b :: c1 :: c2 :: c3 :: c4 :: d :: e :: _ =>
    a = lbrace && b = lbrace &&
    (c1 = 'n' || c1 = 'N') && (c2 = 'a' || c2 = 'A') &&
    (c3 = 'm' || c3 = 'M') && (c4 = 'e' || c4 = 'E') &&
    d = rbrace && e = rbrace
  | _ => false

/-- The scan of `str.replace(/\{\{name\}\}/gi, repl)`: left to right,
non-overlapping; at each match the substitution of `repl` is emitted
and the scan resumes after the match.  `pre` accumulates the part of
the subject already passed.  A suffix shorter than the eight-character
pattern cannot contain a match and passes through unchanged. -/
def jsReplaceNameScan (repl pre : List Char) : List Char → List Char
  | a :: b :: c1 :: c2 :: c3 :: c4 :: d :: e :: rest =>
    if placeholderAt (a :: b :: c1 :: c2 :: c3 :: c4 :: d :: e :: rest) then
      getSubstitution [a, b, c1, c2, c3, c4, d, e] pre rest repl ++
        jsReplaceNameScan repl (pre ++ [a, b, c1, c2, c3, c4, d, e]) rest
    else a :: jsReplaceNameScan repl (pre ++ [a]) (b :: c1 :: c2 :: c3 :: c4 :: d :: e :: rest)
  | cs => cs

/-- `subject.replace(/\{\{name\}\}/gi, name)` as used by `processRow`
on the subject and the HTML body. -/
def jsReplaceNameGI (subject name : String) : String :=
  String.mk (jsReplaceNameScan name.data [] subject.data)

/-! ## Email validation (`isValidFormat`, `validateEmail`) -/

/-- Does the character list match `[^\s@]+\.[^\s@]+` (the domain part of
the format regex)?  Equivalently: all characters admissible and a dot
occurs that is neither the first nor the last character. -/
def matchDomainPart (d : List Char) : Bool :=
  d.all okLocalChar && (d.drop 1).dropLast.contains '.'

/-- `isValidFormat(email)`: the anchored regex
`/^[^\s@]+@[^\s@]+\.[^\s@]+$/`.  Both sides of the `@` exclude `@`
itself, so a match forces exactly one `@`; the part before it is a
nonempty run of admissible characters and the part after it matches
the domain pattern. -/
def isValidFormat (email : String) : Bool :=
  match splitOnAt email.data with
  | [l, d] => !l.isEmpty && l.all okLocalChar && matchDomainPart d
  | _ => false

/-- One MX record as returned by `dns.resolveMx`. -/
structure MxRecord where
  exchange : String
  priority : Nat
deriving DecidableEq, Repr

/-- The result of an MX resolution: a thrown error (message) or a
record list. -/
def MxResolver := String → Except String (List MxRecord)

/-- The value of `validateEmail`: `{valid: true}` or
`{valid: false, reason}`. -/
structure ValidationResult where
  valid : Bool
  reason : Option String
deriving DecidableEq, Repr

/-- `email.split("@")[1]`: the domain part handed to the resolver. -/
def emailDomain (email : String) : String :=
  String.mk ((splitOnAt email.data).getD 1 [])

/-- `validateEmail(email)`, with the DNS call supplied as `resolveMx`.
The `try`/`catch` around the resolution becomes the `Except` match:
both a thrown resolver error and an empty record list fold into the
"no mail server" failure. -/
def validateEmail (resolveMx : MxResolver) (email : String) : ValidationResult :=
  if !isValidFormat email then
    { valid := false, reason := some "Invalid email format" }
  else
    let domain := emailDomain email
    match resolveMx domain with
    | .error _ =>
      { valid := false, reason := some ("No mail server found for " ++ domain) }
    | .ok records =>
      if records.isEmpty then
        { valid := false, reason := some ("No mail server found for " ++ domain) }
      else
        { valid := true, reason := none }

/-! ## Rich text rendering (`richTextToHtml`) -/

/-- The annotation flags of a Notion rich-text run. -/
structure Annotations where
  bold : Bool := false
  italic : Bool := false
  strikethrough : Bool := false
  underline : Bool := false
  code : Bool := false
deriving DecidableEq, Repr

/-- One rich-text run: its plain text, annotation flags, and optional
hyperlink target. -/
structure RichTextItem where
  plain_text : String
  annotations : Annotations := {}
  href : Option String := none
deriving DecidableEq, Repr

/-- The escaping chain of `richTextToHtml`:
`.replace(/&/g,"&amp;").replace(/</g,"&lt;").replace(/>/g,"&gt;").replace(/\n/g,"<br>")`,
applied in exactly that order. -/
def escapeAndBreak (s : String) : String :=
  String.mk (replaceCharAll '\n' "<br>".data
    (replaceCharAll '>' "&gt;".data
      (replaceCharAll '<' "&lt;".data
        (replaceCharAll '&' "&amp;".data s.data))))

/-- The inline `<code>` wrapper of `richTextToHtml`. -/
def codeWrap (text : String) : String :=
  "<code style=\"background:#f4f4f4;padding:1px 5px;border-radius:3px;font-family:monospace\">"
    ++ text ++ "</code>"

/-- The `<a>` wrapper of `richTextToHtml`. -/
def hrefWrap (href text : String) : String :=
  "<a href=\"" ++ href ++ "\" style=\"color:#0070f3\">" ++ text ++ "</a>"

/-- The body of the `map` inside `richTextToHtml`: escape, then wrap
according to the annotation flags and the hyperlink, in source order. -/
def renderRun (rt : RichTextItem) : String :=
  let text0 := escapeAndBreak rt.plain_text
  let text1 := if rt.annotations.code then codeWrap text0 else text0
  let text2 := if rt.annotations.bold then "<strong>" ++ text1 ++ "</strong>" else text1
  let text3 := if rt.annotations.italic then "<em>" ++ text2 ++ "</em>" else text2
  let text4 := if rt.annotations.strikethrough then "<s>" ++ text3 ++ "</s>" else text3
  let text5 := if rt.annotations.underline then "<u>" ++ text4 ++ "</u>" else text4
  match rt.href with
  | some h => hrefWrap h text5
  | none => text5

/-- `richTextToHtml(richTexts)`: the runs rendered and concatenated
(the early return on an empty array yields `""`, which the join of the
empty map also yields). -/
def richTextToHtml (richTexts : List RichTextItem) : String :=
  String.join (richTexts.map renderRun)

/-! ## Block rendering (`blocksToHtml`) -/

/-- A Notion content block, as consumed by `blocksToHtml`: the type tag
together with the payload the corresponding `case` reads.  `image`
carries the URL already resolved from the external/file variants
(`none` when absent); `unsupported` stands for any type tag outside the
`switch` (the `default` case). -/
inductive Block where
  | paragraph (rich_text : List RichTextItem)
  | heading_1 (rich_text : List RichTextItem)
  | heading_2 (rich_text : List RichTextItem)
  | heading_3 (rich_text : List RichTextItem)
  | bulleted_list_item (rich_text : List RichTextItem)
  | numbered_list_item (rich_text : List RichTextItem)
  | to_do (rich_text : List RichTextItem) (checked : Bool)
  | quote (rich_text : List RichTextItem)
  | code (rich_text : List RichTextItem)
  | divider
  | image (url : Option String)
  | unsupported
deriving DecidableEq, Repr

/-- The `<ul>` opening line pushed by the bulleted case. -/
def ulOpenLine : String := "<ul style=\"margin:0 0 12px 0;padding-left:24px\">"

/-- The `<ol>` opening line pushed by the numbered case. -/
def olOpenLine : String := "<ol style=\"margin:0 0 12px 0;padding-left:24px\">"

/-- The `<li>` line pushed for a list item. -/
def liLine (html : String) : String :=
  "<li style=\"margin-bottom:4px\">" ++ html ++ "</li>"

/-- The paragraph line: nonempty inline HTML in a `<p>`, an empty run
list as a `&nbsp;` spacer (the `html ? … : …` truthiness test). -/
def paragraphLine (html : String) : String :=
  if html.isEmpty then "<p style=\"margin:0 0 12px 0\">&nbsp;</p>"
  else "<p style=\"margin:0 0 12px 0\">" ++ html ++ "</p>"

/-- The heading lines for levels 1–3. -/
def headingLine (level : Nat) (html : String) : String :=
  if level = 1 then "<h1 style=\"font-size:22px;font-weight:700;margin:0 0 12px 0\">" ++ html ++ "</h1>"
  else if level = 2 then "<h2 style=\"font-size:18px;font-weight:700;margin:0 0 10px 0\">" ++ html ++ "</h2>"
  else "<h3 style=\"font-size:15px;font-weight:700;margin:0 0 8px 0\">" ++ html ++ "</h3>"

/-- The to-do line with its checked/unchecked glyph. -/
def todoLine (checked : Bool) (html : String) : String :=
  "<p style=\"margin:0 0 6px 0\">" ++ (if checked then "☑" else "☐") ++ " " ++ html ++ "</p>"

/-- The quote line. -/
def quoteLine (html : String) : String :=
  "<blockquote style=\"border-left:3px solid #ccc;margin:0 0 12px 0;padding:4px 0 4px 14px;color:#555\">"
    ++ html ++ "</blockquote>"

/-- The preformatted code-block line. -/
def codeBlockLine (html : String) : String :=
  "<pre style=\"background:#f4f4f4;padding:12px;border-radius:4px;font-family:monospace;overflow-x:auto;margin:0 0 12px 0\"><code>"
    ++ html ++ "</code></pre>"

/-- The divider line. -/
def dividerLine : String :=
  "<hr style=\"border:none;border-top:1px solid #e0e0e0;margin:16px 0\">"

/-- The image line. -/
def imageLine (url : String) : String :=
  "<img src=\"" ++ url ++ "\" style=\"max-width:100%;margin:0 0 12px 0\" alt=\"\">"

/-- `closeUl()`: the lines it pushes given the `inUl` flag. -/
def closeUlLines (inUl : Bool) : List String :=
  if inUl then ["</ul>"] else []

/-- `closeOl()`: the lines it pushes given the `inOl` flag. -/
def closeOlLines (inOl : Bool) : List String :=
  if inOl then ["</ol>"] else []

/-- One iteration of the `for` loop of `blocksToHtml`: the lines pushed
for `block` (the conditional container closes, then the `switch` case)
and the updated `inUl`/`inOl` flags. -/
def blockStep (block : Block) (inUl inOl : Bool) : List String × Bool × Bool :=
  match block with
  | .paragraph rt =>
    (closeUlLines inUl ++ closeOlLines inOl ++ [paragraphLine (richTextToHtml rt)], false, false)
  | .heading_1 rt =>
    (closeUlLines inUl ++ closeOlLines inOl ++ [headingLine 1 (richTextToHtml rt)], false, false)
  | .heading_2 rt =>
    (closeUlLines inUl ++ closeOlLines inOl ++ [headingLine 2 (richTextToHtml rt)], false, false)
  | .heading_3 rt =>
    (closeUlLines inUl ++ closeOlLines inOl ++ [headingLine 3 (richTextToHtml rt)], false, false)
  | .bulleted_list_item rt =>
    (closeOlLines inOl ++ (if inUl then [] else [ulOpenLine]) ++ [liLine (richTextToHtml rt)],
      true, false)
  | .numbered_list_item rt =>
    (closeUlLines inUl ++ (if inOl then [] else [olOpenLine]) ++ [liLine (richTextToHtml rt)],
      false, true)
  | .to_do rt checked =>
    (closeUlLines inUl ++ closeOlLines inOl ++ [todoLine checked (richTextToHtml rt)], false, false)
  | .quote rt =>
    (closeUlLines inUl ++ closeOlLines inOl ++ [quoteLine (richTextToHtml rt)], false, false)
  | .code rt =>
    (closeUlLines inUl ++ closeOlLines inOl ++ [codeBlockLine (richTextToHtml rt)], false, false)
  | .divider =>
    (closeUlLines inUl ++ closeOlLines inOl ++ [dividerLine], false, false)
  | .image url =>
    (closeUlLines inUl ++ closeOlLines inOl ++
      (match url with | some u => [imageLine u] | none => []), false, false)
  | .unsupported =>
    (closeUlLines inUl ++ closeOlLines inOl, false, false)

/-- The loop of `blocksToHtml` threaded over the block list, followed by
the trailing `closeUl(); closeOl()`. -/
def blockLines : List Block → Bool → Bool → List String
  | [], inUl, inOl => closeUlLines inUl ++ closeOlLines inOl
  | b :: rest, inUl, inOl =>
    (blockStep b inUl inOl).1 ++ blockLines rest (blockStep b inUl inOl).2.1 (blockStep b inUl inOl).2.2

/-- `blocksToHtml(blocks)`: the collected lines joined with newlines. -/
def blocksToHtml (blocks : List Block) : String :=
  String.intercalate "\n" (blockLines blocks false false)

/-! ### Well-formedness of the emitted line sequence

The list-grouping claim is stated through a scanner over the emitted
lines: each line is classified by its first three characters, and the
scan tracks which list container (if any) is open.  A line sequence is
accepted exactly when containers alternate open/close without nesting
or interleaving, only `<li>` lines appear inside a container, every
non-list line appears outside any container, and no container is left
open at the end. -/

/-- Classification of an output line by its leading characters. -/
inductive LineKind where
  | ulOpen | ulClose | olOpen | olClose | item | other
deriving DecidableEq, Repr

/-- Classify a line: `<ul`, `<ol`, `</u`, `</o`, `<li`, or anything
else. -/
def lineKind (l : String) : LineKind :=
  match l.data with
  | '<' :: 'u' :: 'l' :: _ => .ulOpen
  | '<' :: 'o' :: 'l' :: _ => .olOpen
  | '<' :: '/' :: 'u' :: _ => .ulClose
  | '<' :: '/' :: 'o' :: _ => .olClose
  | '<' :: 'l' :: 'i' :: _ => .item
  | _ => .other

/-- The scanner state: which list container is currently open. -/
inductive ListSt where
  | noList | inUl | inOl
deriving DecidableEq, Repr

/-- One scanner transition; `none` signals a violation (an unmatched
close, a nested or interleaved open, an item outside a container, or a
non-list line inside one). -/
def lineTransition (k : LineKind) (st : ListSt) : Option ListSt :=
  match k, st with
  | .ulOpen, .noList => some .inUl
  | .ulClose, .inUl => some .noList
  | .olOpen, .noList => some .inOl
  | .olClose, .inOl => some .noList
  | .item, .inUl => some .inUl
  | .item, .inOl => some .inOl
  | .other, .noList => some .noList
  | _, _ => none

/-- Run the scanner over a line sequence. -/
def scanLines : List String → ListSt → Option ListSt
  | [], st => some st
  | l :: rest, st =>
    match lineTransition (lineKind l) st with
    | some st2 => scanLines rest st2
    | none => none

/-- A line sequence is container-well-formed when the scan starting
outside any container succeeds and ends outside any container. -/
def containersWellFormed (lines : List String) : Bool :=
  scanLines lines .noList = some .noList

/-! ## Token manager (`getGraphToken`)

The module-level mutable pair `cachedToken` / `tokenExpiresAt` becomes
an explicit `TokenState`; `Date.now()` becomes the `now` argument; the
POST to the token endpoint becomes the `exchange` argument carrying the
response the endpoint would return.  The function's value records the
returned token (or the thrown error message), the updated state, and
whether a token-endpoint exchange was performed. -/

/-- The token cache: `cachedToken = null` / `tokenExpiresAt = 0`
initially.  Times are milliseconds since the epoch. -/
structure TokenState where
  cachedToken : Option String
  tokenExpiresAt : Int
deriving DecidableEq, Repr

/-- The parsed JSON of a token-endpoint response together with the
HTTP-level `res.ok` flag. -/
structure TokenResponse where
  ok : Bool
  access_token : Option String
  expires_in : Int
  refresh_token : Option String
  error_description : Option String
  error : Option String
deriving DecidableEq, Repr

/-- The outcome of one `getGraphToken()` call. -/
structure TokenCallResult where
  result : Except String String
  state : TokenState
  exchanged : Bool
deriving Repr

/-- `data.error_description || data.error || "Token refresh failed"`
(JavaScript `||` on possibly-absent strings; an empty string is falsy). -/
def tokenErrorMessage (data : TokenResponse) : String :=
  match data.error_description with
  | some s => if s.isEmpty then
      (match data.error with
       | some e => if e.isEmpty then "Token refresh failed" else e
       | none => "Token refresh failed")
    else s
  | none =>
    match data.error with
    | some e => if e.isEmpty then "Token refresh failed" else e
    | none => "Token refresh failed"

/-- The refresh path of `getGraphToken()` (lines 66–101): a missing
`OUTLOOK_REFRESH_TOKEN` throws before any network call; a response
failing `res.ok || data.access_token` throws the provider's message;
on success the cache is set to the new token with expiry
`now + (expires_in - 60) * 1000` — the advertised lifetime less a
sixty-second safety margin.  (The rotation notice on a changed refresh
token is a pure log line and affects no returned value.) -/
def getGraphTokenRefresh (st : TokenState) (now : Int) (refreshToken : Option String)
    (exchange : TokenResponse) : TokenCallResult :=
  match refreshToken with
  | none =>
    { result := .error "OUTLOOK_REFRESH_TOKEN is not set.", state := st, exchanged := false }
  | some rt =>
    if rt.isEmpty then
      { result := .error "OUTLOOK_REFRESH_TOKEN is not set.", state := st, exchanged := false }
    else
    match exchange.access_token with
    | none => { result := .error (tokenErrorMessage exchange), state := st, exchanged := true }
    | some at2 =>
      if exchange.ok && !at2.isEmpty then
        { result := .ok at2
          state := { cachedToken := some at2
                     tokenExpiresAt := now + (exchange.expires_in - 60) * 1000 }
          exchanged := true }
      else
        { result := .error (tokenErrorMessage exchange), state := st, exchanged := true }

/-- `getGraphToken()`.  The cached token is returned while
`Date.now() < tokenExpiresAt` (no exchange); otherwise the
refresh-token exchange runs. -/
def getGraphToken (st : TokenState) (now : Int) (refreshToken : Option String)
    (exchange : TokenResponse) : TokenCallResult :=
  match st.cachedToken with
  | some tok =>
    if !tok.isEmpty && now < st.tokenExpiresAt then
      { result := .ok tok, state := st, exchanged := false }
    else
      getGraphTokenRefresh st now refreshToken exchange
  | none => getGraphTokenRefresh st now refreshToken exchange

/-! ## Row store adapter (`updateRow`, column configuration) -/

/-- The seven column names (`COL`), each an environment override or its
default. -/
structure ColConfig where
  name : String := "Name"
  email : String := "Email"
  send : String := "Send"
  template : String := "Template"
  validationStatus : String := "Validation Status"
  sendStatus : String := "Send Status"
  sentAt : String := "Sent At"
deriving DecidableEq, Repr

/-- The `updates` argument of `updateRow`: each field either supplied
or absent (`undefined`). -/
structure RowUpdate where
  validationStatus : Option String := none
  sendStatus : Option String := none
  sentAt : Option String := none
  send : Option Bool := none
deriving DecidableEq, Repr

/-- A Notion property value as written by `updateRow`. -/
inductive PropValue where
  | richText (content : String)
  | select (name : String)
  | date (start : String)
  | checkbox (checked : Bool)
deriving DecidableEq, Repr

/-- The `properties` object `updateRow` builds and sends to
`notion.pages.update`: one entry per supplied field, keyed by the
configured column name, in source order. -/
def updateRow (col : ColConfig) (updates : RowUpdate) : List (String × PropValue) :=
  (match updates.validationStatus with
   | some v => [(col.validationStatus, PropValue.richText v)]
   | none => []) ++
  (match updates.sendStatus with
   | some v => [(col.sendStatus, PropValue.select v)]
   | none => []) ++
  (match updates.sentAt with
   | some v => [(col.sentAt, PropValue.date v)]
   | none => []) ++
  (match updates.send with
   | some v => [(col.send, PropValue.checkbox v)]
   | none => [])

/-! ## Orchestrator (`processRow`, `main`)

A row page is modelled after `getProp`'s view of it: the extracted
name text (`none` when the property is missing), the email text, and
the relation id of the linked template.  The Notion template fetch and
the Graph send are supplied as results; `processRow`'s value records
the ordered `updateRow` writes it performs, the send attempt (if any)
with its arguments, and which counter it incremented. -/

/-- JavaScript `value || fallback` for an optional string: `null` and
`""` are falsy. -/
def jsOrString (v : Option String) (fallback : String) : String :=
  match v with
  | none => fallback
  | some s => if s.isEmpty then fallback else s

/-- JavaScript truthiness of an optional string. -/
def jsTruthyString (v : Option String) : Bool :=
  match v with
  | none => false
  | some s => !s.isEmpty

/-- A row page as seen through `getProp`: `none` marks a property
`getProp` returned `null` for (absent or of an unexpected type). -/
structure Page where
  id : String
  nameProp : Option String
  emailProp : Option String
  templateProp : Option String
deriving DecidableEq, Repr

/-- A rendered template as returned by `getTemplate`: the subject from
the title property and the HTML from `blocksToHtml`. -/
structure RenderedTemplate where
  subject : String
  html : String
deriving DecidableEq, Repr

/-- The arguments of a `sendEmailViaGraph` call. -/
structure SendArgs where
  toEmail : String
  toName : String
  subject : String
  htmlBody : String
deriving DecidableEq, Repr

/-- The per-row external world: the DNS resolver, the result of
`getTemplate` (a thrown fetch error or the rendered template), the
result of the Graph send, and the current instant for the sent
timestamp. -/
structure RowEnv where
  resolveMx : MxResolver
  fetchTemplate : Except String RenderedTemplate
  sendResult : Except String Unit
  nowIso : String

/-- The observable outcome of `processRow`: the `updateRow` writes in
order, the send attempt with its arguments (`none` when no send was
attempted), and `true` when `sentCount` was incremented (`false` when
`failedCount` was). -/
structure RowOutcome where
  updates : List RowUpdate
  sendAttempt : Option SendArgs
  sent : Bool
deriving DecidableEq, Repr

/-- `processRow(page)`, with the row's external calls supplied by
`env`.  Each early return writes one failure update; the success path
writes the intermediate "✅ Passed" / "Sending..." update, attempts the
send, and writes the terminal update. -/
def processRow (page : Page) (env : RowEnv) : RowOutcome :=
  let name := jsOrString page.nameProp "there"
  let email := jsOrString page.emailProp ""
  let templatePageId := page.templateProp
  if email.isEmpty then
    { updates := [{ validationStatus := some "No email address", sendStatus := some "Failed",
                    send := some false }]
      sendAttempt := none, sent := false }
  else if !jsTruthyString templatePageId then
    { updates := [{ validationStatus := some "No template linked", sendStatus := some "Failed",
                    send := some false }]
      sendAttempt := none, sent := false }
  else
    match validateEmail env.resolveMx email with
    | { valid := false, reason := r } =>
      { updates := [{ validationStatus := some ("❌ " ++ (r.getD "")),
                      sendStatus := some "Failed", send := some false }]
        sendAttempt := none, sent := false }
    | { valid := true, reason := _ } =>
      match env.fetchTemplate with
      | .error msg =>
        { updates := [{ validationStatus := some ("Template error: " ++ msg),
                        sendStatus := some "Failed", send := some false }]
          sendAttempt := none, sent := false }
      | .ok tpl =>
        let subject := jsReplaceNameGI tpl.subject name
        let htmlBody := jsReplaceNameGI tpl.html name
        let intermediate : RowUpdate :=
          { validationStatus := some "✅ Passed", sendStatus := some "Sending..." }
        let attempt : SendArgs :=
          { toEmail := email, toName := name, subject := subject, htmlBody := htmlBody }
        match env.sendResult with
        | .ok _ =>
          { updates := [intermediate,
                        { sendStatus := some "Sent", sentAt := some env.nowIso,
                          send := some false }]
            sendAttempt := some attempt, sent := true }
        | .error msg =>
          { updates := [intermediate,
                        { sendStatus := some "Failed",
                          validationStatus := some ("Send error: " ++ msg),
                          send := some false }]
            sendAttempt := some attempt, sent := false }

/-- The summary of one run: the two counters and the process exit
code. -/
structure RunSummary where
  sentCount : Nat
  failedCount : Nat
  exitCode : Nat
deriving DecidableEq, Repr

/-- `main()` (named `mainRun` here since `main` is reserved for entry
points).  `missingSecret` is whether any of the four required
environment variables is absent; `rowsResult` the outcome of
`getPendingRows()`; `envOf` supplies each row's external world.  A
missing secret or an unreachable store exits 1 before any row; an
empty listing exits 0; otherwise the rows are processed in order
(counters accumulated from `processRow`) and the exit code is 1
exactly when `failedCount > 0`. -/
def mainRun (missingSecret : Bool) (rowsResult : Except String (List Page))
    (envOf : Page → RowEnv) : RunSummary :=
  if missingSecret then { sentCount := 0, failedCount := 0, exitCode := 1 }
  else
    match rowsResult with
    | .error _ => { sentCount := 0, failedCount := 0, exitCode := 1 }
    | .ok rows =>
      if rows.length = 0 then { sentCount := 0, failedCount := 0, exitCode := 0 }
      else
        let outcomes := rows.map (fun p => (processRow p (envOf p)).sent)
        let sent := outcomes.count true
        let failed := outcomes.count false
        { sentCount := sent, failedCount := failed,
          exitCode := if failed > 0 then 1 else 0 }

/-! ## Spec-side comparison definitions and auxiliary state -/

/-- Replacement strings on which JavaScript's `GetSubstitution` is the
identity: no occurrence of the live `$` patterns (`$$`, `$&`, a
backquoted `$`, a single-quoted `$`). -/
def dollarSafe : List Char → Bool
  | [] => true
  | [_] => true
  | c :: d :: rest2 =>
    if c = '$' then
      !(d = '$' || d = '&' || d = backquoteChar || d = squoteChar) && dollarSafe (d :: rest2)
    else dollarSafe (d :: rest2)

/-- Modelled from the spec's words ("all case-insensitive occurrences of
a recipient-name placeholder token … are replaced with the row's
recipient name"): the same left-to-right non-overlapping scan, but each
match replaced by the name itself, literally. -/
def literalNameSubst (name : List Char) : List Char → List Char
  | a :: b :: c1 :: c2 :: c3 :: c4 :: d :: e :: rest =>
    if placeholderAt (a :: b :: c1 :: c2 :: c3 :: c4 :: d :: e :: rest) then
      name ++ literalNameSubst name rest
    else a :: literalNameSubst name (b :: c1 :: c2 :: c3 :: c4 :: d :: e :: rest)
  | cs => cs

/-- The scanner state corresponding to the `inUl` / `inOl` flag pair of
`blocksToHtml`. -/
def containerState (inUl inOl : Bool) : ListSt :=
  if inUl then .inUl else if inOl then .inOl else .noList

/-! ## Helper lemmas -/

/-- An `<li>` line is classified as an item whatever its inline HTML. -/
theorem lineKind_liLine (s : String) : lineKind (liLine s) = LineKind.item := rfl

/-- The `<ul>` opener is classified as a container opening. -/
theorem lineKind_ulOpenLine : lineKind ulOpenLine = LineKind.ulOpen := rfl

/-- The `<ol>` opener is classified as a container opening. -/
theorem lineKind_olOpenLine : lineKind olOpenLine = LineKind.olOpen := rfl

/-- The `</ul>` line is classified as a container close. -/
theorem lineKind_ulCloseLine : lineKind "</ul>" = LineKind.ulClose := rfl

/-- The `</ol>` line is classified as a container close. -/
theorem lineKind_olCloseLine : lineKind "</ol>" = LineKind.olClose := rfl

/-- A paragraph line is a non-list line, in both the `&nbsp;` and the
inline-HTML branch. -/
theorem lineKind_paragraphLine (s : String) : lineKind (paragraphLine s) = LineKind.other := by
  unfold paragraphLine; split <;> rfl

/-- A heading line is a non-list line at every level. -/
theorem lineKind_headingLine (level : Nat) (s : String) :
    lineKind (headingLine level s) = LineKind.other := by
  unfold headingLine; split
  · rfl
  · split <;> rfl

/-- A to-do line is a non-list line for either glyph. -/
theorem lineKind_todoLine (checked : Bool) (s : String) :
    lineKind (todoLine checked s) = LineKind.other := rfl

/-- A quote line is a non-list line. -/
theorem lineKind_quoteLine (s : String) : lineKind (quoteLine s) = LineKind.other := rfl

/-- A code-block line is a non-list line. -/
theorem lineKind_codeBlockLine (s : String) : lineKind (codeBlockLine s) = LineKind.other := rfl

/-- The divider line is a non-list line. -/
theorem lineKind_dividerLine : lineKind dividerLine = LineKind.other := rfl

/-- An image line is a non-list line. -/
theorem lineKind_imageLine (s : String) : lineKind (imageLine s) = LineKind.other := rfl

/-- The scanner distributes over concatenation of line sequences. -/
theorem scanLines_append (xs ys : List String) (st : ListSt) :
    scanLines (xs ++ ys) st = (scanLines xs st).bind (fun st2 => scanLines ys st2) := by
  induction xs generalizing st with
  | nil => rfl
  | cons l rest ih =>
    simp only [List.cons_append, scanLines]
    cases lineTransition (lineKind l) st with
    | none => rfl
    | some st2 => simpa using ih st2

/-- The loop invariant of `blocksToHtml`: starting from flags with at
most one container open, the lines the remaining loop emits drive the
scanner from the matching state back to `noList` without violation. -/
theorem scanLines_blockLines (blocks : List Block) :
    ∀ inUl inOl : Bool, (inUl && inOl) = false →
      scanLines (blockLines blocks inUl inOl) (containerState inUl inOl) =
        some ListSt.noList := by
  induction blocks with
  | nil =>
    intro u o h
    cases u <;> cases o <;>
      simp_all [blockLines, closeUlLines, closeOlLines, scanLines, containerState,
        lineTransition, lineKind_ulCloseLine, lineKind_olCloseLine]
  | cons b rest ih =>
    intro u o h
    rw [blockLines, scanLines_append]
    have step :
        scanLines (blockStep b u o).1 (containerState u o) =
          some (containerState (blockStep b u o).2.1 (blockStep b u o).2.2) ∧
        ((blockStep b u o).2.1 && (blockStep b u o).2.2) = false := by
      cases b <;> cases u <;> cases o <;>
        simp_all [blockStep, closeUlLines, closeOlLines, scanLines, containerState,
          lineTransition, lineKind_ulOpenLine, lineKind_olOpenLine, lineKind_ulCloseLine,
          lineKind_olCloseLine, lineKind_liLine, lineKind_paragraphLine, lineKind_headingLine,
          lineKind_todoLine, lineKind_quoteLine, lineKind_codeBlockLine, lineKind_dividerLine,
          lineKind_imageLine] <;>
        (try split) <;>
        simp_all [scanLines, lineTransition, lineKind_imageLine]
    rw [step.1]
    simpa using ih _ _ step.2

/-- `splitOnAt` never returns an empty part list. -/
theorem splitOnAt_ne_nil (cs : List Char) : splitOnAt cs ≠ [] := by
  induction cs with
  | nil => simp [splitOnAt]
  | cons c rest ih =>
    rw [splitOnAt]
    cases hr : splitOnAt rest with
    | nil => exact absurd hr ih
    | cons h t =>
      show ¬(if c = '@' then [] :: h :: t else (c :: h) :: t) = []
      split <;> simp

/-- A one-part split means the input had no `@` and is that part. -/
theorem splitOnAt_eq_one (cs x : List Char) (h : splitOnAt cs = [x]) : cs = x := by
  induction cs generalizing x with
  | nil => simp [splitOnAt] at h; simp [h]
  | cons c rest ih =>
    rw [splitOnAt] at h
    cases hr : splitOnAt rest with
    | nil => exact absurd hr (splitOnAt_ne_nil rest)
    | cons h2 t2 =>
      rw [hr] at h
      have h' : (if c = '@' then [] :: h2 :: t2 else (c :: h2) :: t2) = [x] := h
      by_cases hc : c = '@'
      · rw [if_pos hc] at h'
        simp at h'
      · rw [if_neg hc] at h'
        have hx : c :: h2 = x := (List.cons_eq_cons.mp h').1
        have ht : t2 = [] := (List.cons_eq_cons.mp h').2
        have : rest = h2 := ih h2 (by rw [hr, ht])
        rw [this, hx]

/-- A two-part split decomposes the input around its single `@`. -/
theorem splitOnAt_eq_two (cs l d : List Char) (h : splitOnAt cs = [l, d]) :
    cs = l ++ '@' :: d := by
  induction cs generalizing l with
  | nil => simp [splitOnAt] at h
  | cons c rest ih =>
    rw [splitOnAt] at h
    cases hr : splitOnAt rest with
    | nil => exact absurd hr (splitOnAt_ne_nil rest)
    | cons h2 t2 =>
      rw [hr] at h
      have h' : (if c = '@' then [] :: h2 :: t2 else (c :: h2) :: t2) = [l, d] := h
      by_cases hc : c = '@'
      · rw [if_pos hc] at h'
        have hl : ([] : List Char) = l := (List.cons_eq_cons.mp h').1
        have h2d : h2 = d ∧ t2 = [] := by
          have := (List.cons_eq_cons.mp h').2
          exact ⟨(List.cons_eq_cons.mp this).1, (List.cons_eq_cons.mp this).2⟩
        have hrest : rest = d := splitOnAt_eq_one rest d (by rw [hr, h2d.1, h2d.2])
        rw [hc, hrest, ← hl]
        rfl
      · rw [if_neg hc] at h'
        have hl : c :: h2 = l := (List.cons_eq_cons.mp h').1
        have ht : t2 = [d] := (List.cons_eq_cons.mp h').2
        have hrest : rest = h2 ++ '@' :: d := ih h2 (by rw [hr, ht])
        rw [hrest, ← hl]
        rfl

/-- On a `$`-safe replacement string, `GetSubstitution` is the
identity. -/
theorem getSubstitution_dollarSafe (matched pre post : List Char) :
    ∀ repl, dollarSafe repl = true → getSubstitution matched pre post repl = repl := by
  have main : ∀ n repl, repl.length ≤ n → dollarSafe repl = true →
      getSubstitution matched pre post repl = repl := by
    intro n
    induction n with
    | zero =>
      intro repl hlen _
      match repl with
      | [] => rfl
      | _ :: _ => simp at hlen
    | succ n ih =>
      intro repl hlen hsafe
      match repl with
      | [] => rfl
      | [c] => rfl
      | c :: d :: rest2 =>
        simp only [dollarSafe] at hsafe
        simp only [getSubstitution]
        by_cases hc : c = '$'
        · rw [if_pos hc] at hsafe ⊢
          simp only [Bool.and_eq_true, Bool.not_eq_true', Bool.or_eq_false_iff,
            decide_eq_false_iff_not] at hsafe
          obtain ⟨⟨⟨⟨hd1, hd2⟩, hd3⟩, hd4⟩, hrest⟩ := hsafe
          rw [if_neg hd1, if_neg hd2, if_neg hd3, if_neg hd4,
            ih (d :: rest2) (by simp at hlen ⊢; omega) hrest]
        · rw [if_neg hc] at hsafe ⊢
          rw [ih (d :: rest2) (by simp at hlen ⊢; omega) hsafe]
  intro repl hsafe
  exact main repl.length repl (Nat.le_refl _) hsafe

/-- Under a `$`-safe replacement the JavaScript replace scan agrees
with literal substitution, whatever prefix has been consumed. -/
theorem jsReplaceNameScan_eq_literal (repl : List Char) (h : dollarSafe repl = true) :
    ∀ cs pre, jsReplaceNameScan repl pre cs = literalNameSubst repl cs := by
  have main : ∀ n cs pre, cs.length ≤ n →
      jsReplaceNameScan repl pre cs = literalNameSubst repl cs := by
    intro n
    induction n with
    | zero =>
      intro cs pre hlen
      have : cs = [] := List.length_eq_zero.mp (Nat.le_zero.mp hlen)
      subst this
      rfl
    | succ n ih =>
      intro cs pre hlen
      match cs with
      | [] => rfl
      | [a] => rfl
      | [a, b] => rfl
      | [a, b, c1] => rfl
      | [a, b, c1, c2] => rfl
      | [a, b, c1, c2, c3] => rfl
      | [a, b, c1, c2, c3, c4] => rfl
      | [a, b, c1, c2, c3, c4, d] => rfl
      | a :: b :: c1 :: c2 :: c3 :: c4 :: d :: e :: rest =>
        simp only [jsReplaceNameScan, literalNameSubst]
        by_cases hp : placeholderAt (a :: b :: c1 :: c2 :: c3 :: c4 :: d :: e :: rest) = true
        · rw [if_pos hp, if_pos hp, getSubstitution_dollarSafe _ _ _ _ h,
            ih rest _ (by simp at hlen; omega)]
        · rw [if_neg hp, if_neg hp,
            ih (b :: c1 :: c2 :: c3 :: c4 :: d :: e :: rest) _ (by simp at hlen ⊢; omega)]
  intro cs pre
  exact main cs.length cs pre (Nat.le_refl _)

/-- C6: for every address failing the syntactic pattern, `validateEmail`
returns invalid with reason "Invalid email format", and the result does
not depend on the MX resolver — the domain lookup cannot influence (and
is never reached by) the value. -/
theorem validateEmail_invalid_format (email : String)
    (h : isValidFormat email = false) :
    (∀ resolveMx : MxResolver,
        validateEmail resolveMx email =
          { valid := false, reason := some "Invalid email format" }) ∧
    (∀ r1 r2 : MxResolver, validateEmail r1 email = validateEmail r2 email) := by
  constructor
  · intro resolveMx
    simp [validateEmail, h]
  · intro r1 r2
    simp [validateEmail, h]

/-- Witness for C6 at the concrete address "not an email". -/
theorem validateEmail_invalid_format_witness :
    isValidFormat "not an email" = false ∧
    validateEmail (fun _ => Except.ok [{ exchange := "mx1", priority := 10 }]) "not an email" =
      { valid := false, reason := some "Invalid email format" } :=
  ⟨by decide,
   (validateEmail_invalid_format "not an email" (by decide)).1
     (fun _ => Except.ok [{ exchange := "mx1", priority := 10 }])⟩

/-- C7: for every syntactically valid address whose domain resolution
throws any resolver error or returns an empty record list,
`validateEmail` returns invalid with reason "No mail server found for
<domain>", where the domain is exactly the part of the address after
its `@`; the resolver error is absorbed into this value and no
exception escapes (the function is total). -/
theorem validateEmail_no_mx (email : String) (resolveMx : MxResolver)
    (hfmt : isValidFormat email = true)
    (hres : (∃ e, resolveMx (emailDomain email) = Except.error e) ∨
      resolveMx (emailDomain email) = Except.ok []) :
    validateEmail resolveMx email =
      { valid := false,
        reason := some ("No mail server found for " ++ emailDomain email) } ∧
    ∃ l, email.data = l ++ '@' :: (emailDomain email).data := by
  obtain ⟨l, d, hsplit⟩ : ∃ l d, splitOnAt email.data = [l, d] := by
    unfold isValidFormat at hfmt
    cases hs : splitOnAt email.data with
    | nil => rw [hs] at hfmt; simp at hfmt
    | cons a t =>
      cases t with
      | nil => rw [hs] at hfmt; simp at hfmt
      | cons b t2 =>
        cases t2 with
        | nil => exact ⟨a, b, rfl⟩
        | cons c t3 => rw [hs] at hfmt; simp at hfmt
  constructor
  · unfold validateEmail
    rw [hfmt]
    rcases hres with ⟨e, he⟩ | he <;> simp [he]
  · refine ⟨l, ?_⟩
    have hd : (emailDomain email).data = d := by
      simp [emailDomain, hsplit]
    rw [hd]
    exact splitOnAt_eq_two email.data l d hsplit

/-- Witness for C7 at "user@example.com" with a throwing resolver. -/
theorem validateEmail_no_mx_witness :
    validateEmail (fun _ => Except.error "queryMx ETIMEDOUT") "user@example.com" =
      { valid := false,
        reason := some ("No mail server found for " ++ emailDomain "user@example.com") } :=
  (validateEmail_no_mx "user@example.com" (fun _ => Except.error "queryMx ETIMEDOUT")
    (by decide) (Or.inl ⟨"queryMx ETIMEDOUT", rfl⟩)).1

/-- C2: a run is escaped (`&` first, then `<`, then `>`, then newlines
to `<br>`, so introduced entities are not re-escaped and the inserted
`<br>` is not escaped) and then wrapped in the fixed nesting order
code (innermost), bold, italic, strikethrough, underline, hyperlink
(outermost) — exhibited by the run with every flag set — and a run
with no annotation flags and no hyperlink renders as its escaped text
only. -/
theorem richTextToHtml_run_rendering :
    (∀ rt : RichTextItem, rt.annotations = {} → rt.href = none →
        richTextToHtml [rt] = escapeAndBreak rt.plain_text) ∧
    (∀ s h : String,
        richTextToHtml [{ plain_text := s,
                          annotations := { bold := true, italic := true, strikethrough := true,
                                           underline := true, code := true },
                          href := some h }] =
          hrefWrap h ("<u>" ++ ("<s>" ++ ("<em>" ++ ("<strong>" ++ codeWrap (escapeAndBreak s) ++
            "</strong>") ++ "</em>") ++ "</s>") ++ "</u>")) ∧
    escapeAndBreak "&<>\n" = "&amp;&lt;&gt;<br>" ∧
    escapeAndBreak "<" = "&lt;" ∧
    escapeAndBreak "\n" = "<br>" := by
  refine ⟨?_, ?_, by decide, by decide, by decide⟩
  · rintro ⟨pt, ann, href⟩ hann hhref
    simp only at hann hhref
    subst hann; subst hhref
    rfl
  · intro s h
    rfl

/-- Witness for C2 at a concrete unannotated run. -/
theorem richTextToHtml_run_rendering_witness :
    richTextToHtml [{ plain_text := "x<y" }] = escapeAndBreak "x<y" :=
  richTextToHtml_run_rendering.1 { plain_text := "x<y" } rfl rfl

/-- A refresh call that returns a token has installed exactly that
token in the cache, with expiry `now + (expires_in - 60) * 1000`, and
the token is nonempty. -/
theorem getGraphTokenRefresh_ok (st st1 : TokenState) (now : Int) (rt : Option String)
    (ex : TokenResponse) (tok : String) (exch : Bool)
    (h : getGraphTokenRefresh st now rt ex =
      { result := Except.ok tok, state := st1, exchanged := exch }) :
    st1 = { cachedToken := some tok,
            tokenExpiresAt := now + (ex.expires_in - 60) * 1000 } ∧
    tok.isEmpty = false := by
  unfold getGraphTokenRefresh at h
  split at h
  · simp [TokenCallResult.mk.injEq] at h
  · split at h
    · simp [TokenCallResult.mk.injEq] at h
    · split at h
      · simp [TokenCallResult.mk.injEq] at h
      · split at h
        · rename_i at2 hok
          simp [TokenCallResult.mk.injEq] at h
          obtain ⟨h1, h2, _⟩ := h
          subst h1
          simp [Bool.and_eq_true] at hok
          exact ⟨h2.symm, by simpa using hok.2⟩
        · simp [TokenCallResult.mk.injEq] at h

/-- A `getGraphToken` call that returned a token through an exchange
left the cache holding that token with the margin-adjusted expiry. -/
theorem getGraphToken_ok_exchanged (st0 st1 : TokenState) (t0 : Int) (rt : Option String)
    (ex : TokenResponse) (tok : String)
    (h : getGraphToken st0 t0 rt ex =
      { result := Except.ok tok, state := st1, exchanged := true }) :
    st1 = { cachedToken := some tok,
            tokenExpiresAt := t0 + (ex.expires_in - 60) * 1000 } ∧
    tok.isEmpty = false := by
  unfold getGraphToken at h
  split at h
  · split at h
    · simp [TokenCallResult.mk.injEq] at h
    · exact getGraphTokenRefresh_ok st0 st1 t0 rt ex tok true h
  · exact getGraphTokenRefresh_ok st0 st1 t0 rt ex tok true h

/-- C3: once a token is obtained through an exchange at instant `t0`
with lifetime `expires_in`, the cache expiry is the token expiry less
the sixty-second safety margin; every call strictly before that
instant returns the identical cached token, leaves the state unchanged
(so the property propagates to all subsequent calls in the window) and
performs no token-endpoint exchange; and a call at or after that
instant, with the refresh secret present, performs a new exchange. -/
theorem getGraphToken_idempotent (st0 st1 : TokenState) (t0 : Int)
    (rt : Option String) (ex : TokenResponse) (tok : String)
    (hcall : getGraphToken st0 t0 rt ex =
      { result := Except.ok tok, state := st1, exchanged := true }) :
    st1.tokenExpiresAt = t0 + (ex.expires_in - 60) * 1000 ∧
    (∀ (now : Int) (rt2 : Option String) (ex2 : TokenResponse),
      now < st1.tokenExpiresAt →
      getGraphToken st1 now rt2 ex2 =
        { result := Except.ok tok, state := st1, exchanged := false }) ∧
    (∀ (now : Int) (r : String) (ex2 : TokenResponse),
      r.isEmpty = false → st1.tokenExpiresAt ≤ now →
      (getGraphToken st1 now (some r) ex2).exchanged = true) := by
  obtain ⟨hst, htok⟩ := getGraphToken_ok_exchanged st0 st1 t0 rt ex tok hcall
  subst hst
  refine ⟨rfl, ?_, ?_⟩
  · intro now rt2 ex2 hnow
    have hnow2 : now < t0 + (ex.expires_in - 60) * 1000 := by simpa using hnow
    simp only [getGraphToken]
    simp [htok, hnow2]
  · intro now r ex2 hr hge
    have hge2 : ¬(now < t0 + (ex.expires_in - 60) * 1000) := by
      have : t0 + (ex.expires_in - 60) * 1000 ≤ now := by simpa using hge
      omega
    simp only [getGraphToken, getGraphTokenRefresh]
    simp [htok, hge2, hr]
    cases ex2.access_token with
    | none => simp
    | some a => simp [apply_ite TokenCallResult.exchanged]

/-- Witness for C3: a concrete exchange at t0 = 1000 with
`expires_in` 3600, then a cache hit at t = 2000000. -/
theorem getGraphToken_idempotent_witness :
    getGraphToken { cachedToken := some "tokA", tokenExpiresAt := 1000 + (3600 - 60) * 1000 }
        2000000 (some "r")
        { ok := true, access_token := some "tokB", expires_in := 7200,
          refresh_token := none, error_description := none, error := none } =
      { result := Except.ok "tokA",
        state := { cachedToken := some "tokA", tokenExpiresAt := 1000 + (3600 - 60) * 1000 },
        exchanged := false } :=
  (getGraphToken_idempotent { cachedToken := none, tokenExpiresAt := 0 }
      { cachedToken := some "tokA", tokenExpiresAt := 1000 + (3600 - 60) * 1000 }
      1000 (some "r")
      { ok := true, access_token := some "tokA", expires_in := 3600,
        refresh_token := none, error_description := none, error := none } "tokA"
      rfl).2.1 2000000 (some "r")
      { ok := true, access_token := some "tokB", expires_in := 7200,
        refresh_token := none, error_description := none, error := none }
      (by decide)

/-- C4 (amended): for every subject/body string and every recipient
name free of the JavaScript replacement patterns `$$`, `$&`,
backquote-`$` and quote-`$`, the renderer replaces every
case-insensitive occurrence of the placeholder in the text with the
name itself, and the template "Hi \x7b\x7bName\x7d\x7d,
\x7b\x7bname\x7d\x7d!" with name "Ann" yields "Hi Ann, Ann!". -/
theorem processRow_placeholder_substitution (subject name : String)
    (h : dollarSafe name.data = true) :
    jsReplaceNameGI subject name = String.mk (literalNameSubst name.data subject.data) ∧
    jsReplaceNameGI "Hi \x7b\x7bName\x7d\x7d, \x7b\x7bname\x7d\x7d!" "Ann" = "Hi Ann, Ann!" :=
  ⟨congrArg String.mk (jsReplaceNameScan_eq_literal name.data h subject.data []),
   by decide⟩

/-- Counterexample to C4 as stated: with recipient name `$&` the
JavaScript replacement inserts the matched text, not the name, so the
subject is left as the placeholder instead of becoming `$&`. -/
theorem processRow_placeholder_substitution_cex :
    jsReplaceNameGI "\x7b\x7bname\x7d\x7d" "$&" = "\x7b\x7bname\x7d\x7d" ∧
    ("\x7b\x7bname\x7d\x7d" : String) ≠ "$&" :=
  ⟨by decide, by decide⟩

/-- Witness for C4 (amended) at a concrete template and the name
"Ann". -/
theorem processRow_placeholder_substitution_witness :
    dollarSafe "Ann".data = true ∧
    jsReplaceNameGI "Hello \x7b\x7bNAME\x7d\x7d" "Ann" =
      String.mk (literalNameSubst "Ann".data "Hello \x7b\x7bNAME\x7d\x7d".data) :=
  ⟨by decide, (processRow_placeholder_substitution "Hello \x7b\x7bNAME\x7d\x7d" "Ann" (by decide)).1⟩

/-- C1: the shape [bulleted, bulleted, paragraph, numbered, numbered]
renders as exactly one `<ul>` enclosing the two bulleted items, then
the paragraph markup, then exactly one `<ol>` enclosing the two
numbered items; and for every input block sequence the emitted line
sequence is container-well-formed — every open `<ul>`/`<ol>` is closed
before any line of a different kind (including the other list kind),
containers are never nested or shared, and none is left open at the
end. -/
theorem blocksToHtml_list_grouping :
    (∀ r1 r2 r3 r4 r5 : List RichTextItem,
      blocksToHtml [Block.bulleted_list_item r1, Block.bulleted_list_item r2,
                    Block.paragraph r3, Block.numbered_list_item r4,
                    Block.numbered_list_item r5] =
        String.intercalate "\n"
          [ulOpenLine, liLine (richTextToHtml r1), liLine (richTextToHtml r2), "</ul>",
           paragraphLine (richTextToHtml r3),
           olOpenLine, liLine (richTextToHtml r4), liLine (richTextToHtml r5), "</ol>"]) ∧
    (∀ blocks : List Block, containersWellFormed (blockLines blocks false false) = true) := by
  constructor
  · intro r1 r2 r3 r4 r5
    rfl
  · intro blocks
    have h := scanLines_blockLines blocks false false rfl
    have h2 : scanLines (blockLines blocks false false) ListSt.noList = some ListSt.noList := h
    simp [containersWellFormed, h2]

/-- C5 (amended): for every row whose email is present, template is
linked, validation succeeds and template fetch succeeds, `processRow`
writes — before the send-dependent terminal update — an update setting
validation-status to the string "✅ Passed" and send-status to the
string "Sending..." and nothing else, as the first of exactly two
writes. -/
theorem processRow_intermediate_update (page : Page) (env : RowEnv) (tpl : RenderedTemplate)
    (hemail : (jsOrString page.emailProp "").isEmpty = false)
    (htpl : jsTruthyString page.templateProp = true)
    (hvalid : (validateEmail env.resolveMx (jsOrString page.emailProp "")).valid = true)
    (hfetch : env.fetchTemplate = Except.ok tpl) :
    ∃ final : RowUpdate,
      (processRow page env).updates =
        [{ validationStatus := some "✅ Passed", sendStatus := some "Sending...",
           sentAt := none, send := none }, final] := by
  rcases hval : validateEmail env.resolveMx (jsOrString page.emailProp "") with ⟨vb, vr⟩
  rw [hval] at hvalid
  simp only at hvalid
  subst hvalid
  rcases hsend : env.sendResult with m | u
  · exact ⟨{ sendStatus := some "Failed",
             validationStatus := some ("Send error: " ++ m), send := some false },
      by simp [processRow, hemail, htpl, hval, hfetch, hsend]⟩
  · exact ⟨{ sendStatus := some "Sent", sentAt := some env.nowIso, send := some false },
      by simp [processRow, hemail, htpl, hval, hfetch, hsend]⟩

/-- Counterexample to C5 as stated: in a fully successful concrete run
the intermediate update carries "✅ Passed" / "Sending..." (three
ASCII dots), and no written update sets validation-status to the bare
string "Passed" nor send-status to "Sending…" (with the ellipsis
character). -/
theorem processRow_intermediate_update_cex :
    (processRow { id := "row1", nameProp := some "Ann", emailProp := some "ann@example.com",
                  templateProp := some "tpl1" }
        { resolveMx := fun _ => Except.ok [{ exchange := "mx", priority := 1 }],
          fetchTemplate := Except.ok { subject := "Hi \x7b\x7bname\x7d\x7d", html := "<p>x</p>" },
          sendResult := Except.ok (), nowIso := "2026-10-11T00:00:00Z" }).updates.head? =
      some { validationStatus := some "✅ Passed", sendStatus := some "Sending...",
             sentAt := none, send := none } ∧
    ((processRow { id := "row1", nameProp := some "Ann", emailProp := some "ann@example.com",
                   templateProp := some "tpl1" }
        { resolveMx := fun _ => Except.ok [{ exchange := "mx", priority := 1 }],
          fetchTemplate := Except.ok { subject := "Hi \x7b\x7bname\x7d\x7d", html := "<p>x</p>" },
          sendResult := Except.ok (), nowIso := "2026-10-11T00:00:00Z" }).updates.all
      fun u => !(u.validationStatus = some "Passed") && !(u.sendStatus = some "Sending…")) = true ∧
    (processRow { id := "row1", nameProp := some "Ann", emailProp := some "ann@example.com",
                  templateProp := some "tpl1" }
        { resolveMx := fun _ => Except.ok [{ exchange := "mx", priority := 1 }],
          fetchTemplate := Except.ok { subject := "Hi \x7b\x7bname\x7d\x7d", html := "<p>x</p>" },
          sendResult := Except.ok (), nowIso := "2026-10-11T00:00:00Z" }).sent = true := by
  refine ⟨by decide, by decide, by decide⟩

/-- Witness for C5 (amended) at a concrete row whose send fails. -/
theorem processRow_intermediate_update_witness :
    ∃ final : RowUpdate,
      (processRow { id := "roww", nameProp := some "Bo", emailProp := some "bo@example.org",
                    templateProp := some "tplW" }
          { resolveMx := fun _ => Except.ok [{ exchange := "mxw", priority := 5 }],
            fetchTemplate := Except.ok { subject := "S", html := "B" },
            sendResult := Except.error "503", nowIso := "t0" }).updates =
        [{ validationStatus := some "✅ Passed", sendStatus := some "Sending...",
           sentAt := none, send := none }, final] :=
  processRow_intermediate_update _ _ { subject := "S", html := "B" }
    (by decide) (by decide) (by decide) rfl

/-- C10: a row whose recipient-name property is missing or empty is
processed exactly as if the name were the literal "there": the whole
observable outcome coincides, and when the send is reached the
dispatcher receives display name "there" and the subject and body with
the placeholder substituted by "there". -/
theorem processRow_name_fallback (page : Page) (env : RowEnv)
    (h : page.nameProp = none ∨ page.nameProp = some "") :
    processRow page env = processRow { page with nameProp := some "there" } env ∧
    (∀ tpl : RenderedTemplate,
      (jsOrString page.emailProp "").isEmpty = false →
      jsTruthyString page.templateProp = true →
      (validateEmail env.resolveMx (jsOrString page.emailProp "")).valid = true →
      env.fetchTemplate = Except.ok tpl →
      (processRow page env).sendAttempt =
        some { toEmail := jsOrString page.emailProp "", toName := "there",
               subject := jsReplaceNameGI tpl.subject "there",
               htmlBody := jsReplaceNameGI tpl.html "there" }) := by
  have hname : jsOrString page.nameProp "there" = "there" := by
    rcases h with h | h <;> rw [h] <;> decide
  have hname2 : jsOrString (some "there") "there" = "there" := rfl
  constructor
  · simp only [processRow, hname, hname2]
  · intro tpl hemail htpl hvalid hfetch
    rcases hval : validateEmail env.resolveMx (jsOrString page.emailProp "") with ⟨vb, vr⟩
    rw [hval] at hvalid
    simp only at hvalid
    subst hvalid
    rcases hsend : env.sendResult with m | u <;>
      simp [processRow, hname, hemail, htpl, hval, hfetch, hsend]

/-- Witness for C10 at a concrete row with a missing name property. -/
theorem processRow_name_fallback_witness :
    processRow { id := "r2", nameProp := none, emailProp := some "cam@example.org",
                 templateProp := some "tplB" }
        { resolveMx := fun _ => Except.ok [{ exchange := "mxb", priority := 2 }],
          fetchTemplate := Except.ok { subject := "Dear \x7b\x7bNAME\x7d\x7d", html := "H" },
          sendResult := Except.ok (), nowIso := "t1" } =
      processRow { id := "r2", nameProp := some "there", emailProp := some "cam@example.org",
                   templateProp := some "tplB" }
        { resolveMx := fun _ => Except.ok [{ exchange := "mxb", priority := 2 }],
          fetchTemplate := Except.ok { subject := "Dear \x7b\x7bNAME\x7d\x7d", html := "H" },
          sendResult := Except.ok (), nowIso := "t1" } ∧
    (processRow { id := "r2", nameProp := none, emailProp := some "cam@example.org",
                  templateProp := some "tplB" }
        { resolveMx := fun _ => Except.ok [{ exchange := "mxb", priority := 2 }],
          fetchTemplate := Except.ok { subject := "Dear \x7b\x7bNAME\x7d\x7d", html := "H" },
          sendResult := Except.ok (), nowIso := "t1" }).sendAttempt =
      some { toEmail := "cam@example.org", toName := "there",
             subject := jsReplaceNameGI "Dear \x7b\x7bNAME\x7d\x7d" "there",
             htmlBody := jsReplaceNameGI "H" "there" } :=
  ⟨(processRow_name_fallback _ _ (Or.inl rfl)).1,
   (processRow_name_fallback _ _ (Or.inl rfl)).2 { subject := "Dear \x7b\x7bNAME\x7d\x7d", html := "H" }
     (by decide) (by decide) (by decide) rfl⟩

/-- C9: the patch `updateRow` sends to the store contains exactly the
entries of the supplied fields — an entry keyed by a column name with
its typed value iff the corresponding update field is supplied — and,
with the four send-related column names pairwise distinct, a field
supplied as `undefined` contributes no entry under its column at all. -/
theorem updateRow_partial_patch (col : ColConfig) (u : RowUpdate)
    (hd : [col.validationStatus, col.sendStatus, col.sentAt, col.send].Nodup) :
    (∀ (key : String) (v : PropValue),
      ((key, v) ∈ updateRow col u ↔
        ((key = col.validationStatus ∧
            ∃ s, u.validationStatus = some s ∧ v = PropValue.richText s) ∨
         (key = col.sendStatus ∧ ∃ s, u.sendStatus = some s ∧ v = PropValue.select s) ∨
         (key = col.sentAt ∧ ∃ s, u.sentAt = some s ∧ v = PropValue.date s) ∨
         (key = col.send ∧ ∃ b, u.send = some b ∧ v = PropValue.checkbox b)))) ∧
    (u.validationStatus = none → ∀ v, (col.validationStatus, v) ∉ updateRow col u) ∧
    (u.sendStatus = none → ∀ v, (col.sendStatus, v) ∉ updateRow col u) ∧
    (u.sentAt = none → ∀ v, (col.sentAt, v) ∉ updateRow col u) ∧
    (u.send = none → ∀ v, (col.send, v) ∉ updateRow col u) := by
  have hiff : ∀ (key : String) (v : PropValue),
      ((key, v) ∈ updateRow col u ↔
        ((key = col.validationStatus ∧
            ∃ s, u.validationStatus = some s ∧ v = PropValue.richText s) ∨
         (key = col.sendStatus ∧ ∃ s, u.sendStatus = some s ∧ v = PropValue.select s) ∨
         (key = col.sentAt ∧ ∃ s, u.sentAt = some s ∧ v = PropValue.date s) ∨
         (key = col.send ∧ ∃ b, u.send = some b ∧ v = PropValue.checkbox b))) := by
    intro key v
    rcases u with ⟨vs, ss, sa, sd⟩
    rcases vs with _ | s1 <;> rcases ss with _ | s2 <;> rcases sa with _ | s3 <;>
      rcases sd with _ | b4 <;> simp [updateRow]
  have hdist := hd
  simp only [List.nodup_cons, List.mem_cons, List.mem_singleton, List.not_mem_nil,
    or_false, not_or, List.nodup_nil, and_true] at hdist
  refine ⟨hiff, ?_, ?_, ?_, ?_⟩ <;> intro hnone v hmem <;>
    rcases (hiff _ _).mp hmem with ⟨hk, s, hs, hv⟩ | ⟨hk, s, hs, hv⟩ | ⟨hk, s, hs, hv⟩ |
      ⟨hk, s, hs, hv⟩ <;>
    simp_all

/-- Witness for C9 at the default column configuration and an update
supplying only the validation status. -/
theorem updateRow_partial_patch_witness :
    (("Send Status", PropValue.select "Sent") ∉
      updateRow {} { validationStatus := some "ok" }) ∧
    (("Validation Status", PropValue.richText "ok") ∈
      updateRow {} { validationStatus := some "ok" }) :=
  ⟨(updateRow_partial_patch {} { validationStatus := some "ok" } (by decide)).2.2.1 rfl
      (PropValue.select "Sent"),
   ((updateRow_partial_patch {} { validationStatus := some "ok" } (by decide)).1
      "Validation Status" (PropValue.richText "ok")).mpr (Or.inl ⟨rfl, "ok", rfl, rfl⟩)⟩

/-- C8: the process exit code is 0 exactly when no secret is missing,
the row listing succeeded, and the listing is empty or every processed
row ended Sent; and the concrete three-row run in which only the
second row's send fails reports sent = 2, failed = 1 and exit code 1. -/
theorem mainRun_exit_code :
    (∀ (missingSecret : Bool) (rowsResult : Except String (List Page))
        (envOf : Page → RowEnv),
      ((mainRun missingSecret rowsResult envOf).exitCode = 0 ↔
        (missingSecret = false ∧ ∃ rows, rowsResult = Except.ok rows ∧
          (rows = [] ∨ ∀ p ∈ rows, (processRow p (envOf p)).sent = true)))) ∧
    mainRun false
        (Except.ok
          [{ id := "r1", nameProp := some "A", emailProp := some "a@b.co",
             templateProp := some "T" },
           { id := "r2", nameProp := some "B", emailProp := some "b@b.co",
             templateProp := some "T" },
           { id := "r3", nameProp := some "C", emailProp := some "c@b.co",
             templateProp := some "T" }])
        (fun p =>
          { resolveMx := fun _ => Except.ok [{ exchange := "mx", priority := 1 }],
            fetchTemplate := Except.ok { subject := "S", html := "B" },
            sendResult := if p.id = "r2" then Except.error "boom" else Except.ok (),
            nowIso := "t" }) =
      { sentCount := 2, failedCount := 1, exitCode := 1 } := by
  constructor
  · intro ms rr envOf
    cases ms
    · cases rr with
      | error m => simp [mainRun]
      | ok rows =>
        by_cases hrows : rows.length = 0
        · have he : rows = [] := List.length_eq_zero.mp hrows
          subst he
          simp [mainRun]
        · have hne : rows ≠ [] := by
            intro he; exact hrows (by simp [he])
          simp only [mainRun, Bool.false_eq_true, if_false, if_neg hrows, Except.ok.injEq]
          constructor
          · intro h0
            refine ⟨by simp, rows, by simp, Or.inr ?_⟩
            intro p hp
            by_contra hsent
            have hfalse : (processRow p (envOf p)).sent = false := by
              cases hx : (processRow p (envOf p)).sent
              · rfl
              · exact absurd hx hsent
            have hmem : false ∈ rows.map (fun q => (processRow q (envOf q)).sent) :=
              List.mem_map.mpr ⟨p, hp, hfalse⟩
            have hcount : 0 < (rows.map (fun q => (processRow q (envOf q)).sent)).count false :=
              List.count_pos_iff.mpr hmem
            rw [if_pos hcount] at h0
            exact absurd h0 one_ne_zero
          · rintro ⟨-, rows2, hr2, hall⟩
            rw [← hr2] at hall
            rcases hall with he | hall
            · exact absurd he hne
            · have hnpos :
                  ¬(0 < (rows.map (fun q => (processRow q (envOf q)).sent)).count false) := by
                intro hpos
                obtain ⟨p, hp, hf⟩ := List.mem_map.mp (List.count_pos_iff.mp hpos)
                rw [hall p hp] at hf
                cases hf
              rw [if_neg hnpos]
    · simp [mainRun]
  · decide

/-- Witness for C8: an empty eligible listing exits 0. -/
theorem mainRun_exit_code_witness :
    (mainRun false (Except.ok ([] : List Page))
        (fun _ =>
          { resolveMx := fun _ => Except.ok [], fetchTemplate := Except.error "x",
            sendResult := Except.error "x", nowIso := "t" })).exitCode = 0 :=
  (mainRun_exit_code.1 false (Except.ok [])
      (fun _ =>
        { resolveMx := fun _ => Except.ok [], fetchTemplate := Except.error "x",
          sendResult := Except.error "x", nowIso := "t" })).mpr
    ⟨rfl, [], rfl, Or.inl rfl⟩
